import Mathlib

/-!
Shallow embedding of the API server and dynamic router subsystem
(`api/server/server.go`): listener lifecycle (`serveAPI`, `Wait`, `Close`),
router construction (`createMux`, `makeHTTPHandler`) and the router swapper.
Errors are represented by their message strings; handlers are modelled as
Lean functions from the request data to their observable outcome.
-/

namespace ApiServer

/-! ## Errors and the listener-closed conversion -/

/-- Go `error` values, represented by their message string. -/
abbrev Err := String

/-- Whether the first character list starts the second. -/
def charsLeadB : List Char → List Char → Bool
  | [], _ => true
  | _ :: _, [] => false
  | a :: as, b :: bs => a == b && charsLeadB as bs

/-- Whether the first character list occurs contiguously in the second. -/
def charsWithinB (needle : List Char) : List Char → Bool
  | [] => needle.isEmpty
  | c :: cs => charsLeadB needle (c :: cs) || charsWithinB needle cs

/-- Go `strings.Contains s sub`: `sub` occurs as a substring of `s`. -/
def stringsContains (s sub : String) : Bool :=
  charsWithinB sub.toList s.toList

/-- The message fragment that `serveAPI` recognises as a closed listener. -/
def closedNetMsg : String := "use of closed network connection"

/-- Body of the goroutine `serveAPI` starts per listener binding: the terminal
result of `srv.Serve()` is replaced by nil when its message contains the
listener-closed fragment, and sent on `chErrors` otherwise unchanged. -/
def cleanServeErr : Option Err → Option Err
  | none => none
  | some m => if stringsContains m closedNetMsg then none else some m

/-! ## The `serveAPI` receive loop and `Wait`

A run of `serveAPI` over N bindings is modelled by the list of terminal
outcomes in the order they are delivered on `chErrors` (completion order).
-/

/-- The receive loop of `serveAPI`: reads outcomes from `chErrors` in
completion order and returns the first non-nil error immediately, or nil
after reading every outcome. -/
def serveAPIRecv : List (Option Err) → Option Err
  | [] => none
  | none :: rest => serveAPIRecv rest
  | some e :: _ => some e

/-- Number of channel receives the loop of `serveAPI` performs before the
function returns. -/
def serveAPIRecvCount : List (Option Err) → Nat
  | [] => 0
  | none :: rest => serveAPIRecvCount rest + 1
  | some _ :: _ => 1

/-- `Server.serveAPI`, as a function of the bindings' raw terminal serve
results in completion order: each goroutine cleans its own error before
sending, and the main loop folds the channel in completion order. -/
def serveAPI (completions : List (Option Err)) : Option Err :=
  serveAPIRecv (completions.map cleanServeErr)

/-- How many of the bindings' outcomes `serveAPI` has received when it
returns (the bindings it has actually joined). -/
def serveAPIJoined (completions : List (Option Err)) : Nat :=
  serveAPIRecvCount (completions.map cleanServeErr)

/-- `Server.Wait`: runs `serveAPI`; if the error is non-nil it is sent on
`waitChan` and `Wait` returns, otherwise nil is sent. The result is the list
of every value sent on `waitChan` before `Wait` returns. -/
def Wait (completions : List (Option Err)) : List (Option Err) :=
  match serveAPI completions with
  | some e => [some e]
  | none => [none]

/-! ## The shared error taxonomy -/

/-- Kinds of the shared error taxonomy. -/
inductive ErrKind
  | notFound
  | malformed
  | conflict
  | unauthorized
  | forbidden
  | internal
deriving DecidableEq, Repr

/-- A typed handler error: taxonomy kind plus message. -/
structure APIError where
  kind : ErrKind
  msg : String
deriving DecidableEq, Repr

/-- Modelled from the spec: `httputils.GetHTTPErrorStatusCode` is not under
`src/`; the error taxonomy maps kind to status: not-found 404,
malformed-request 400, conflict 409, unauthorized 401, forbidden 403,
internal 500 as the catch-all. -/
def GetHTTPErrorStatusCode (e : APIError) : Nat :=
  match e.kind with
  | .notFound => 404
  | .malformed => 400
  | .conflict => 409
  | .unauthorized => 401
  | .forbidden => 403
  | .internal => 500

/-! ## Requests, responses, handlers -/

/-- The request data this subsystem reads: method, URL path, the User-Agent
header, and the variable map `mux.Vars` produced by the routing pattern
(`none` models Go's nil map, returned when no named variable matched). -/
structure Request where
  method : String
  urlPath : String
  userAgent : String
  muxVars : Option (List (String × String))
deriving DecidableEq, Repr

/-- A wire response: status code plus body. -/
structure Response where
  status : Nat
  body : String
deriving DecidableEq, Repr

/-- Modelled from the spec: the structured error body written by
`httputils.MakeErrorHandler` (not under `src/`) carries the error's message
as a structured payload, never a raw stack dump. -/
def structuredBody (e : APIError) : String :=
  e.msg

/-- Modelled from the spec: `httputils.MakeErrorHandler err` (not under
`src/`) returns a handler that writes a structured error body with the
status obtained from the shared error taxonomy. -/
def MakeErrorHandler (e : APIError) : Request → Response :=
  fun _ => ⟨GetHTTPErrorStatusCode e, structuredBody e⟩

/-- Modelled from the spec: `errors.NewRequestNotFoundError` (not under
`src/`) classifies an error message under the not-found kind. -/
def NewRequestNotFoundError (msg : String) : APIError :=
  ⟨.notFound, msg⟩

/-- `httputils.APIFunc`: a command handler taking the request context
(reduced to the user-agent value carried in it), the request, and the
path-variable map, returning an optional typed error. The response writer is
omitted: a handler's own successful writes decide no claim. -/
abbrev APIFunc := String → Request → List (String × String) → Option APIError

/-- A middleware wraps a dispatch adapter into a new one. -/
abbrev Middleware := APIFunc → APIFunc

/-- Modelled from the spec: `Server.handlerWithGlobalMiddlewares`
(`api/server/middleware.go`, not under `src/`) applies every registered
middleware to the handler, first-registered outermost. -/
def handlerWithGlobalMiddlewares (mws : List Middleware) (h : APIFunc) : APIFunc :=
  mws.foldr (fun m acc => m acc) h

/-- Observable outcome of one invocation of the handler built by
`makeHTTPHandler`: the context value and variable map passed to the wrapped
handler, the error response the adapter wrote (none when the handler
returned no error), and the format string chosen for the error log line. -/
structure DispatchResult where
  ctxUA : String
  varsPassed : List (String × String)
  errResponse : Option Response
  logFormat : Option String

/-- The error the middleware-wrapped handler returns on a request inside
`makeHTTPHandler` (the scrutinee of its error branch). -/
def handlerErr (mws : List Middleware) (h : APIFunc) (r : Request) : Option APIError :=
  handlerWithGlobalMiddlewares mws h r.userAgent r (r.muxVars.getD [])

/-- `Server.makeHTTPHandler`: builds the request context carrying the
User-Agent header, replaces a nil `mux.Vars` map by a fresh empty one,
invokes the middleware-wrapped handler, and on error chooses the log format
("%+v" exactly for status 500, "%v" otherwise) and writes
`MakeErrorHandler err`. -/
def makeHTTPHandler (mws : List Middleware) (h : APIFunc) : Request → DispatchResult :=
  fun r =>
    let ctx := r.userAgent
    let handlerFunc := handlerWithGlobalMiddlewares mws h
    let vars := match r.muxVars with
      | none => []
      | some vs => vs
    match handlerFunc ctx r vars with
    | none => ⟨ctx, vars, none, none⟩
    | some err =>
        let statusCode := GetHTTPErrorStatusCode err
        let errFormat := if statusCode == 500 then "%+v" else "%v"
        ⟨ctx, vars, some (MakeErrorHandler err r), some errFormat⟩

/-! ## `createMux` -/

/-- The version prefix matcher parsed by the router. -/
def versionMatcher : String := "/v{version:[0-9.]+}"

/-- One route contributed by a router: method, path pattern and handler. -/
structure Route where
  method : String
  path : String
  handler : APIFunc

/-- One registration in the mux table:
`m.Path(pattern).Methods(method).Handler(handler)`. -/
structure MuxEntry where
  pattern : String
  method : String
  handler : Request → DispatchResult

/-- The mux built by `createMux`: the method-bound route registrations, the
`HandleFunc` registration for the version-prefixed wildcard, and the
`NotFoundHandler` fallback. -/
structure Mux where
  entries : List MuxEntry
  wildcardPattern : String
  wildcardHandler : Request → Response
  notFoundHandler : Request → Response

/-- The nested registration loop of `createMux`: for every router, for every
route, wrap the handler once and append the version-prefixed and the bare
registration, both holding that same wrapped handler. -/
def createMuxEntries (mws : List Middleware) (routers : List (List Route)) :
    List MuxEntry :=
  routers.foldl (fun acc apiRouter =>
    apiRouter.foldl (fun acc r =>
      let f := makeHTTPHandler mws r.handler
      acc ++ [⟨versionMatcher ++ r.path, r.method, f⟩, ⟨r.path, r.method, f⟩]) acc)
    []

/-- `Server.createMux`: register all routes, then install
`MakeErrorHandler (NewRequestNotFoundError "page not found")` both under the
version-prefixed wildcard and as the mux's not-found fallback. -/
def createMux (mws : List Middleware) (routers : List (List Route)) : Mux :=
  let entries := createMuxEntries mws routers
  let err := NewRequestNotFoundError "page not found"
  let notFoundHandler := MakeErrorHandler err
  ⟨entries, versionMatcher ++ "/{path:.*}", notFoundHandler, notFoundHandler⟩

/-! ## `Close` -/

/-- Observable outcome of `Server.Close`: how many bindings had `Close`
invoked on them, and every error that was logged. -/
structure CloseOutcome where
  attempted : Nat
  logged : List Err
deriving DecidableEq, Repr

/-- `Server.Close`: iterates over every binding, calls its `Close`, and logs
the returned error when non-nil; it never stops early. A binding is
represented by the result its `Close` returns. -/
def ServerClose (closeResults : List (Option Err)) : CloseOutcome :=
  closeResults.foldl
    (fun o res =>
      ⟨o.attempted + 1, o.logged ++ (match res with | some e => [e] | none => [])⟩)
    ⟨0, []⟩

/-! ## The router swapper -/

/-- A routing table as held by the swapper: the complete entry list of a mux
built by `createMux`. -/
abbrev Table := List MuxEntry

/-- Operations interleaved on the swapper: an administrative swap installing
a fully built table, or a request served (tagged by an id). -/
inductive SwapperOp
  | swap : Table → SwapperOp
  | serve : Nat → SwapperOp

/-- Modelled from the spec: `routerSwapper` (`router_swapper.go`, not under
`src/`) holds one router reference behind a read/write lock; `Swap` replaces
the whole reference in one atomic step and `ServeHTTP` reads the current
reference under the read lock. Given the active table and a schedule of
operations, this returns the table each `serve` observes, in order. -/
def swapperObservations (cur : Table) : List SwapperOp → List Table
  | [] => []
  | SwapperOp.swap t :: ops => swapperObservations t ops
  | SwapperOp.serve _ :: ops => cur :: swapperObservations cur ops

/-- `Server.DisableProfiler`: rebuilds the mux without profiler routes via
`createMux` and swaps it in; the table is fully built before `Swap` runs. -/
def DisableProfiler (mws : List Middleware) (routers : List (List Route)) :
    SwapperOp :=
  SwapperOp.swap (createMux mws routers).entries

/-! ## Concrete fixtures used by witnesses -/

/-- A handler that always succeeds. -/
def okHandler : APIFunc := fun _ _ _ => none

/-- A handler that always returns an internal-class error. -/
def internalHandler : APIFunc := fun _ _ _ => some ⟨.internal, "boom"⟩

/-- A handler that always returns a conflict-class error. -/
def conflictHandler : APIFunc := fun _ _ _ => some ⟨.conflict, "busy"⟩

/-- A request whose routing pattern matched no named variables. -/
def bareReq : Request := ⟨"GET", "/info", "agent", none⟩

/-- A concrete route used in witnesses. -/
def pingRoute : Route := ⟨"GET", "/ping", okHandler⟩

/-- A concrete routing table used in swapper witnesses. -/
def wTable : Table := createMuxEntries [] [[pingRoute]]

/-! ## Theorems -/

/-- Helper: the receive loop of `serveAPI` returns `none` exactly by reading
the whole channel when every delivered outcome is nil. -/
theorem serveAPIRecvCount_of_all_none (l : List (Option Err))
    (h : ∀ c ∈ l, c = none) : serveAPIRecvCount l = l.length := by
  induction l with
  | nil => rfl
  | cons c rest ih =>
      have hc : c = none := h c (List.mem_cons_self c rest)
      subst hc
      simp only [serveAPIRecvCount, List.length_cons]
      exact congrArg (· + 1) (ih fun c hc => h c (List.mem_cons_of_mem _ hc))

/-- Helper: the receive loop returns the first non-nil value it reads. -/
theorem serveAPIRecv_eq_findSome (l : List (Option Err)) :
    serveAPIRecv l = l.findSome? id := by
  induction l with
  | nil => rfl
  | cons c rest ih =>
      cases c with
      | none => simpa [serveAPIRecv] using ih
      | some e => simp [serveAPIRecv]

/-- Helper: when the receive loop returns nil it has read every outcome. -/
theorem serveAPIRecv_none_all (l : List (Option Err))
    (h : serveAPIRecv l = none) : ∀ c ∈ l, c = none := by
  induction l with
  | nil => intro c hc; cases hc
  | cons c rest ih =>
      cases c with
      | none =>
          intro d hd
          rcases List.mem_cons.mp hd with hd | hd
          · exact hd
          · exact ih h d hd
      | some e => simp [serveAPIRecv] at h

/-- Helper: count of receives, phrased by cases on the result. -/
theorem serveAPIRecvCount_eq (l : List (Option Err)) :
    (serveAPIRecv l = none → serveAPIRecvCount l = l.length) ∧
    (∀ e, serveAPIRecv l = some e →
      serveAPIRecvCount l = (l.takeWhile Option.isNone).length + 1) := by
  induction l with
  | nil => exact ⟨fun _ => rfl, fun e he => by simp [serveAPIRecv] at he⟩
  | cons c rest ih =>
      cases c with
      | none =>
          refine ⟨fun h => ?_, fun e he => ?_⟩
          · exact serveAPIRecvCount_of_all_none _ (serveAPIRecv_none_all _ h)
          · have := ih.2 e he
            simp only [serveAPIRecvCount, List.takeWhile, Option.isNone,
              List.length_cons]
            omega
      | some e =>
          refine ⟨fun h => ?_, fun d hd => ?_⟩
          · simp [serveAPIRecv] at h
          · simp [serveAPIRecvCount, List.takeWhile, Option.isNone]

/-- Claim C1, counterexample: two bindings whose completion order delivers a
real error first; `serveAPI` returns having received only one of the two
terminal outcomes (`serveAPIJoined = 1`, not `2`), so `Wait` returns before
the second binding has delivered its outcome — it is not a join over all
bindings when an error completes first. -/
theorem wait_join_counterexample :
    ¬ (serveAPIJoined [some "boom", (none : Option Err)] =
        [some "boom", (none : Option Err)].length) := by
  decide

/-- Claim C1, amended: `Wait`/`serveAPI` joins all bindings only in the
all-clean case. When every binding's (cleaned) outcome is nil it receives
exactly one outcome per binding before returning; but as soon as a non-clean
error is delivered it returns at once, having received only the clean
outcomes that completed earlier plus that error — it does not wait for the
remaining bindings. -/
theorem wait_join (completions : List (Option Err)) :
    (serveAPI completions = none →
      serveAPIJoined completions = completions.length) ∧
    (∀ e, serveAPI completions = some e →
      serveAPIJoined completions =
        ((completions.map cleanServeErr).takeWhile Option.isNone).length + 1) := by
  have h := serveAPIRecvCount_eq (completions.map cleanServeErr)
  refine ⟨fun hn => ?_, fun e he => h.2 e he⟩
  have := h.1 hn
  simpa [serveAPIJoined, List.length_map] using this

/-- Witness for the amended claim C1: with one cleanly closing binding all
outcomes are joined; with an error delivered first, only it is received. -/
theorem wait_join_witness :
    serveAPIJoined [(none : Option Err)] = [(none : Option Err)].length ∧
    serveAPIJoined [some "boom", (none : Option Err)] =
      (([some "boom", (none : Option Err)].map cleanServeErr).takeWhile
        Option.isNone).length + 1 :=
  ⟨(wait_join [none]).1 rfl, (wait_join [some "boom", none]).2 "boom" rfl⟩

/-- Claim C3: the value `serveAPI` produces (and `Wait` sends) is the first
non-clean error among the bindings' cleaned terminal outcomes taken in
completion order, and is nil when every binding terminates cleanly. The
result is a function of the completion-order list alone, so registration
order plays no part in which error is chosen. -/
theorem first_error_in_completion_order (completions : List (Option Err)) :
    serveAPI completions = (completions.map cleanServeErr).findSome? id ∧
    ((∀ c ∈ completions, cleanServeErr c = none) → serveAPI completions = none) := by
  refine ⟨serveAPIRecv_eq_findSome _, fun h => ?_⟩
  unfold serveAPI
  have : ∀ c ∈ completions.map cleanServeErr, c = none := by
    intro c hc
    rcases List.mem_map.mp hc with ⟨d, hd, rfl⟩
    exact h d hd
  have hall : serveAPIRecvCount (completions.map cleanServeErr) =
      (completions.map cleanServeErr).length :=
    serveAPIRecvCount_of_all_none _ this
  induction completions with
  | nil => rfl
  | cons c rest ih =>
      have hc : cleanServeErr c = none := h c (List.mem_cons_self c rest)
      simp only [List.map, hc, serveAPIRecv]
      exact ih (fun d hd => h d (List.mem_cons_of_mem _ hd))
        (fun d hd => this d (List.mem_cons_of_mem _ hd))
        (serveAPIRecvCount_of_all_none _
          (fun d hd => this d (List.mem_cons_of_mem _ hd)))

/-- Witness for claim C3: concrete runs where the second-completing binding
errors, and where both bindings complete cleanly. -/
theorem first_error_in_completion_order_witness :
    serveAPI [(none : Option Err), some "boom"] =
      (([(none : Option Err), some "boom"].map cleanServeErr).findSome? id) ∧
    serveAPI [(none : Option Err), none] = none :=
  ⟨(first_error_in_completion_order [none, some "boom"]).1,
   (first_error_in_completion_order [none, none]).2 (by decide)⟩

/-- Claim C4: a serving-loop error whose message contains
"use of closed network connection" is converted to a clean nil outcome;
every other error passes through unconverted; and consequently no error that
`serveAPI` surfaces (and `Wait` forwards) ever carries the listener-closed
message. -/
theorem closed_listener_is_clean (m : Err) (completions : List (Option Err))
    (e : Err) :
    (stringsContains m closedNetMsg = true → cleanServeErr (some m) = none) ∧
    (stringsContains m closedNetMsg = false → cleanServeErr (some m) = some m) ∧
    (serveAPI completions = some e → stringsContains e closedNetMsg = false) := by
  refine ⟨fun h => by simp [cleanServeErr, h], fun h => by simp [cleanServeErr, h],
    fun h => ?_⟩
  unfold serveAPI at h
  induction completions with
  | nil => simp [serveAPIRecv] at h
  | cons c rest ih =>
      cases c with
      | none => exact ih (by simpa [cleanServeErr, serveAPIRecv] using h)
      | some m' =>
          by_cases hc : stringsContains m' closedNetMsg = true
          · exact ih (by simpa [cleanServeErr, hc, serveAPIRecv] using h)
          · have hc' : stringsContains m' closedNetMsg = false :=
              Bool.eq_false_iff.mpr hc
            have : some m' = some e := by
              simpa [cleanServeErr, hc', serveAPIRecv] using h
            cases this
            exact hc'

/-- Witness for claim C4: a closed-listener message is swallowed, an
ordinary error is kept, and the surfaced error is not a closed-listener
one. -/
theorem closed_listener_is_clean_witness :
    cleanServeErr (some "accept tcp [::]:2375: use of closed network connection")
      = none ∧
    cleanServeErr (some "boom") = some "boom" ∧
    stringsContains "boom" closedNetMsg = false :=
  ⟨(closed_listener_is_clean
      "accept tcp [::]:2375: use of closed network connection" [] "x").1 rfl,
   (closed_listener_is_clean "boom" [] "x").2.1 rfl,
   (closed_listener_is_clean "x" [some "boom"] "boom").2.2 rfl⟩

/-- Claim C10: `Wait` sends exactly one value on the wait channel before
returning — the error from `serveAPI` when non-nil, and nil otherwise. -/
theorem wait_sends_exactly_once (completions : List (Option Err)) :
    Wait completions = [serveAPI completions] := by
  unfold Wait
  cases h : serveAPI completions <;> rfl

/-- Helper: the inner registration loop of `createMux`, run from any
accumulator, appends exactly the two registrations per route. -/
theorem createMux_inner_loop (mws : List Middleware) :
    ∀ (rs : List Route) (acc : List MuxEntry),
      rs.foldl (fun acc r =>
        let f := makeHTTPHandler mws r.handler
        acc ++ [⟨versionMatcher ++ r.path, r.method, f⟩, ⟨r.path, r.method, f⟩])
        acc =
      acc ++ rs.flatMap (fun r =>
        [⟨versionMatcher ++ r.path, r.method, makeHTTPHandler mws r.handler⟩,
         ⟨r.path, r.method, makeHTTPHandler mws r.handler⟩]) := by
  intro rs
  induction rs with
  | nil => intro acc; simp
  | cons r rest ih =>
      intro acc
      simp only [List.foldl_cons, List.flatMap_cons]
      rw [ih]
      simp [List.append_assoc]

/-- Helper: the full registration loop of `createMux` as a flat map over the
flattened route list. -/
theorem createMuxEntries_eq (mws : List Middleware) (routers : List (List Route)) :
    createMuxEntries mws routers =
      routers.flatten.flatMap (fun r =>
        [⟨versionMatcher ++ r.path, r.method, makeHTTPHandler mws r.handler⟩,
         ⟨r.path, r.method, makeHTTPHandler mws r.handler⟩]) := by
  unfold createMuxEntries
  suffices h : ∀ acc : List MuxEntry,
      routers.foldl (fun acc apiRouter =>
        apiRouter.foldl (fun acc r =>
          let f := makeHTTPHandler mws r.handler
          acc ++ [⟨versionMatcher ++ r.path, r.method, f⟩, ⟨r.path, r.method, f⟩])
          acc) acc =
      acc ++ routers.flatten.flatMap (fun r =>
        [⟨versionMatcher ++ r.path, r.method, makeHTTPHandler mws r.handler⟩,
         ⟨r.path, r.method, makeHTTPHandler mws r.handler⟩]) by
    simpa using h []
  induction routers with
  | nil => intro acc; simp
  | cons ar rest ih =>
      intro acc
      simp only [List.foldl_cons, List.flatten_cons, List.flatMap_append]
      rw [createMux_inner_loop mws ar acc, ih]
      simp [List.append_assoc]

/-- Claim C2: every route contributed by every registered router yields
exactly two registrations in the table built by `createMux` — the
version-prefixed form `versionMatcher ++ path` and the bare path, both for
the route's method — and the two registrations hold the identical wrapped
handler. -/
theorem two_path_forms (mws : List Middleware) (routers : List (List Route)) :
    (createMux mws routers).entries =
      routers.flatten.flatMap (fun r =>
        [⟨versionMatcher ++ r.path, r.method, makeHTTPHandler mws r.handler⟩,
         ⟨r.path, r.method, makeHTTPHandler mws r.handler⟩]) ∧
    ∀ r ∈ routers.flatten, ∃ f,
      f = makeHTTPHandler mws r.handler ∧
      (⟨versionMatcher ++ r.path, r.method, f⟩ : MuxEntry) ∈
        (createMux mws routers).entries ∧
      (⟨r.path, r.method, f⟩ : MuxEntry) ∈ (createMux mws routers).entries := by
  have he : (createMux mws routers).entries =
      routers.flatten.flatMap (fun r =>
        [⟨versionMatcher ++ r.path, r.method, makeHTTPHandler mws r.handler⟩,
         ⟨r.path, r.method, makeHTTPHandler mws r.handler⟩]) :=
    createMuxEntries_eq mws routers
  refine ⟨he, fun r hr => ⟨makeHTTPHandler mws r.handler, rfl, ?_, ?_⟩⟩
  · rw [he]
    exact List.mem_flatMap.mpr ⟨r, hr, by simp⟩
  · rw [he]
    exact List.mem_flatMap.mpr ⟨r, hr, by simp⟩

/-- Witness for claim C2: the ping route registered through one router
appears under both path forms with the same wrapped handler. -/
theorem two_path_forms_witness :
    ∃ f, f = makeHTTPHandler [] pingRoute.handler ∧
      (⟨versionMatcher ++ pingRoute.path, pingRoute.method, f⟩ : MuxEntry) ∈
        (createMux [] [[pingRoute]]).entries ∧
      (⟨pingRoute.path, pingRoute.method, f⟩ : MuxEntry) ∈
        (createMux [] [[pingRoute]]).entries :=
  (two_path_forms [] [[pingRoute]]).2 pingRoute (by simp)

/-- Claim C5: `createMux` installs one and the same not-found handler both
under the version-prefixed wildcard pattern and as the mux's catch-all
fallback, and on any request that handler produces the structured
"page not found" resource-not-found response with status 404 through the
shared error-translation path. -/
theorem not_found_structured (mws : List Middleware) (routers : List (List Route))
    (r : Request) :
    (createMux mws routers).wildcardPattern = versionMatcher ++ "/{path:.*}" ∧
    (createMux mws routers).notFoundHandler =
      MakeErrorHandler (NewRequestNotFoundError "page not found") ∧
    (createMux mws routers).wildcardHandler =
      (createMux mws routers).notFoundHandler ∧
    (createMux mws routers).notFoundHandler r =
      ⟨404, structuredBody (NewRequestNotFoundError "page not found")⟩ :=
  ⟨rfl, rfl, rfl, rfl⟩

/-- Claim C6: the variable mapping `makeHTTPHandler` passes to the wrapped
handler is the matched variables when any matched, and a valid empty mapping
when `mux.Vars` returned the nil map — never an absent value. -/
theorem vars_never_nil (mws : List Middleware) (h : APIFunc) (r : Request) :
    (makeHTTPHandler mws h r).varsPassed = r.muxVars.getD [] ∧
    (r.muxVars = none → (makeHTTPHandler mws h r).varsPassed = []) := by
  cases hv : r.muxVars with
  | none =>
      cases hh : handlerWithGlobalMiddlewares mws h r.userAgent r [] with
      | none => simp [makeHTTPHandler, hv, hh]
      | some err => simp [makeHTTPHandler, hv, hh]
  | some vs =>
      cases hh : handlerWithGlobalMiddlewares mws h r.userAgent r vs with
      | none => simp [makeHTTPHandler, hv, hh]
      | some err => simp [makeHTTPHandler, hv, hh]

/-- Witness for claim C6: a request whose pattern matched no named variables
is handed the empty mapping. -/
theorem vars_never_nil_witness :
    (makeHTTPHandler [] okHandler bareReq).varsPassed = [] :=
  (vars_never_nil [] okHandler bareReq).2 rfl

/-- Claim C7: when the wrapped handler returns an error, the log line uses
the full causal format "%+v" exactly when the mapped status is 500 and the
short format "%v" for every other status, while the status mapping and the
error response written are determined by the error alone, independent of
the logging verbosity. -/
theorem log_verbosity (mws : List Middleware) (h : APIFunc) (r : Request)
    (err : APIError) (he : handlerErr mws h r = some err) :
    ((makeHTTPHandler mws h r).logFormat = some "%+v" ↔
      GetHTTPErrorStatusCode err = 500) ∧
    ((makeHTTPHandler mws h r).logFormat = some "%+v" ∨
      (makeHTTPHandler mws h r).logFormat = some "%v") ∧
    (makeHTTPHandler mws h r).errResponse = some (MakeErrorHandler err r) ∧
    (MakeErrorHandler err r).status = GetHTTPErrorStatusCode err := by
  have hres : makeHTTPHandler mws h r =
      ⟨r.userAgent, r.muxVars.getD [], some (MakeErrorHandler err r),
        some (if GetHTTPErrorStatusCode err == 500 then "%+v" else "%v")⟩ := by
    cases hv : r.muxVars with
    | none =>
        have he' : handlerWithGlobalMiddlewares mws h r.userAgent r [] = some err := by
          simpa [handlerErr, hv] using he
        simp [makeHTTPHandler, hv, he']
    | some vs =>
        have he' : handlerWithGlobalMiddlewares mws h r.userAgent r vs = some err := by
          simpa [handlerErr, hv] using he
        simp [makeHTTPHandler, hv, he']
  rw [hres]
  by_cases hs : GetHTTPErrorStatusCode err = 500
  · simp [hs, MakeErrorHandler]
  · have hb : (GetHTTPErrorStatusCode err == 500) = false := by
      simpa using hs
    refine ⟨?_, ?_, rfl, rfl⟩
    · simp only [hb, if_false]
      constructor
      · intro hx
        exact absurd (Option.some.inj hx) (by decide)
      · intro hx; exact absurd hx hs
    · right
      simp [hb]

/-- Witness for claim C7: an internal-class handler error gets the "%+v"
log format, status 500, and the structured error response. -/
theorem log_verbosity_witness :
    (((makeHTTPHandler [] internalHandler bareReq).logFormat = some "%+v" ↔
       GetHTTPErrorStatusCode ⟨.internal, "boom"⟩ = 500) ∧
     ((makeHTTPHandler [] internalHandler bareReq).logFormat = some "%+v" ∨
      (makeHTTPHandler [] internalHandler bareReq).logFormat = some "%v") ∧
     (makeHTTPHandler [] internalHandler bareReq).errResponse =
       some (MakeErrorHandler ⟨.internal, "boom"⟩ bareReq) ∧
     (MakeErrorHandler ⟨.internal, "boom"⟩ bareReq).status =
       GetHTTPErrorStatusCode ⟨.internal, "boom"⟩) :=
  log_verbosity [] internalHandler bareReq ⟨.internal, "boom"⟩ rfl

/-- Helper: the `Close` loop from any starting outcome. -/
theorem serverClose_loop (l : List (Option Err)) :
    ∀ o : CloseOutcome,
      l.foldl (fun o res =>
        ⟨o.attempted + 1,
         o.logged ++ (match res with | some e => [e] | none => [])⟩) o =
      ⟨o.attempted + l.length, o.logged ++ l.filterMap id⟩ := by
  induction l with
  | nil => intro o; simp
  | cons c rest ih =>
      intro o
      simp only [List.foldl_cons]
      rw [ih]
      cases c with
      | none => simp; omega
      | some e => simp [List.append_assoc]; omega

/-- Claim C8: `Close` invokes `Close` on every one of the N bindings even
when earlier closes fail, and every close error is logged (observable), none
silently dropped. -/
theorem close_attempts_all (closeResults : List (Option Err)) :
    (ServerClose closeResults).attempted = closeResults.length ∧
    (ServerClose closeResults).logged = closeResults.filterMap id := by
  unfold ServerClose
  rw [serverClose_loop]
  exact ⟨Nat.zero_add _, by simp⟩

/-- Helper: a schedule of serves alone never changes what is observed. -/
theorem swapper_serve_only (c : Table) :
    ∀ (ops : List SwapperOp), (∀ o ∈ ops, ∃ n, o = SwapperOp.serve n) →
      ∀ t ∈ swapperObservations c ops, t = c := by
  intro ops
  induction ops with
  | nil => intro _ t ht; cases ht
  | cons o rest ih =>
      intro hall t ht
      rcases hall o (List.mem_cons_self _ _) with ⟨n, rfl⟩
      simp only [swapperObservations, List.mem_cons] at ht
      rcases ht with rfl | ht
      · rfl
      · exact ih (fun o ho => hall o (List.mem_cons_of_mem _ ho)) t ht

/-- Helper: any observation around a single atomic swap is one of the two
complete tables. -/
theorem swapper_one_swap (t₁ : Table) :
    ∀ (pre : List SwapperOp) (t₀ : Table) (post : List SwapperOp) (obs : Table),
      (∀ o ∈ pre, ∃ n, o = SwapperOp.serve n) →
      (∀ o ∈ post, ∃ n, o = SwapperOp.serve n) →
      obs ∈ swapperObservations t₀ (pre ++ SwapperOp.swap t₁ :: post) →
      obs = t₀ ∨ obs = t₁ := by
  intro pre
  induction pre with
  | nil =>
      intro t₀ post obs _ hpost hobs
      right
      exact swapper_serve_only t₁ post hpost obs
        (by simpa [swapperObservations] using hobs)
  | cons o rest ih =>
      intro t₀ post obs hpre hpost hobs
      rcases hpre o (List.mem_cons_self _ _) with ⟨n, rfl⟩
      simp only [List.cons_append, swapperObservations, List.mem_cons] at hobs
      rcases hobs with rfl | hobs
      · left; rfl
      · exact ih t₀ post obs (fun o ho => hpre o (List.mem_cons_of_mem _ ho))
          hpost hobs

/-- Claim C9: a request served concurrently with the swap performed by
`DisableProfiler` (which installs the complete table freshly built by
`createMux`) observes either the complete table active before the swap or
the complete new table — never a table with only some of the new entries. -/
theorem serve_swap_atomic (mws : List Middleware) (routers : List (List Route))
    (t₀ : Table) (pre post : List SwapperOp) (obs : Table)
    (hpre : ∀ o ∈ pre, ∃ n, o = SwapperOp.serve n)
    (hpost : ∀ o ∈ post, ∃ n, o = SwapperOp.serve n)
    (hobs : obs ∈ swapperObservations t₀
      (pre ++ DisableProfiler mws routers :: post)) :
    obs = t₀ ∨ obs = (createMux mws routers).entries :=
  swapper_one_swap (createMux mws routers).entries pre t₀ post obs hpre hpost hobs

/-- Witness for claim C9: a serve before and one after a concrete
profiler-disabling swap each observe one of the two complete tables. -/
theorem serve_swap_atomic_witness :
    ([] : Table) = ([] : Table) ∨
    ([] : Table) = (createMux [] [[pingRoute]]).entries :=
  serve_swap_atomic [] [[pingRoute]] [] [SwapperOp.serve 0] [SwapperOp.serve 1] []
    (by intro o ho; simp at ho; exact ⟨0, ho⟩)
    (by intro o ho; simp at ho; exact ⟨1, ho⟩)
    (by simp [swapperObservations, DisableProfiler])

end ApiServer
